import Mathlib

/-!
Verification of the easterseals-v2 session execution engine.

This file gives a shallow embedding of the four core components of the
client-side session engine and proves/refutes the stated properties:

* Config Normalizer — `src/client/src/lib/normalizeConfig.ts`
  (`isLegacyConfig`, `convertLegacyConfig`, `normalizeConfig`)
* Input Multiplexer — `src/client/src/lib/useExternalInput.ts`
  (`canTrigger`, keyboard dispatch, gamepad polling with edge detection)
* Reward/Limit State Machine and Session Termination Arbiter —
  `src/client/src/pages/Session.tsx` (`handleInputActivation`,
  `handleMoneyLimitEnd`, `handleTimeLimitEnd`) over the zustand store
  `src/client/src/stores/useSessionStore.ts`.

JavaScript runtime values that can be a number, a string, a boolean, null
or undefined are modelled by the inductive `JVal`; the nullish-coalescing
operator `??` is `jor`.  Monetary amounts are integers (cents), as in the
source.  Timestamps (`Date.now()`) are integers (milliseconds).
-/

/-! ## JavaScript value model -/

/-- A JavaScript runtime value as it can appear in a stored configuration
field: `undefined`, `null`, a number, a string, or a boolean.  Numbers are
modelled as integers (the source only stores integral cents/seconds). -/
inductive JVal where
  | undefined
  | null
  | num (n : ℤ)
  | str (s : String)
  | boolean (b : Bool)
  deriving DecidableEq, BEq, Repr

/-- Whether a value is nullish (`undefined` or `null`), i.e. replaced by
the right operand of JavaScript `??`. -/
def JVal.nullish : JVal → Bool
  | .undefined => true
  | .null => true
  | _ => false

/-- JavaScript nullish coalescing `x ?? d`. -/
def jor (x d : JVal) : JVal :=
  if x.nullish then d else x

/-- An object-or-array valued field, which can also be absent or null. -/
inductive JOpt (α : Type) where
  | undefined
  | null
  | val (a : α)
  deriving DecidableEq, Repr

/-- `Array.isArray(x)` for a field whose only possible non-nullish shape
is an array. -/
def JOpt.isArray {α : Type} : JOpt (List α) → Bool
  | .val _ => true
  | _ => false

/-- JavaScript loose `x != null` (false exactly for `null`/`undefined`). -/
def JOpt.notNull {α : Type} : JOpt α → Bool
  | .val _ => true
  | _ => false

/-- JavaScript `x ?? d` for an array-valued field. -/
def jorList {α : Type} : JOpt (List α) → List α → List α
  | .val l, _ => l
  | _, d => d

/-! ## Config Normalizer (`src/client/src/lib/normalizeConfig.ts`) -/

/-- A unified input-configuration object as it sits in the `inputs` array
of a stored config.  The new-format branch of `normalizeConfig` passes
these through untouched, so every field keeps its raw runtime value
(`JVal`); `convertLegacyConfig` synthesizes them with concrete values. -/
structure NInput where
  id : String
  name : JVal
  type : JVal
  shape : JVal
  color : JVal
  inputCode : JVal
  inputLabel : JVal
  isRewarded : JVal
  moneyAwarded : JVal
  awardInterval : JVal
  playAwardSound : JVal
  deriving DecidableEq, Repr

/-- A legacy `leftButton`/`middleButton`/`rightButton` object. -/
structure RawButton where
  shape : JVal
  color : JVal
  deriving DecidableEq, Repr

/-- A legacy `externalInputs[]` entry. -/
structure RawExternalInput where
  id : String
  name : JVal
  inputType : JVal
  inputCode : JVal
  inputLabel : JVal
  isActive : JVal
  moneyAwarded : JVal
  awardInterval : JVal
  playAwardSound : JVal
  deriving DecidableEq, Repr

/-- The raw stored configuration (`RawStoredConfig = Record<string, any>`),
restricted to the fields the normalizer reads.  Fields the normalizer
never touches are ignored (they are dropped by both conversion branches). -/
structure RawStoredConfig where
  inputs : JOpt (List NInput) := .undefined
  leftButton : JOpt RawButton := .undefined
  middleButton : JOpt RawButton := .undefined
  rightButton : JOpt RawButton := .undefined
  buttonActive : JVal := .undefined
  timeLimit : JVal := .undefined
  moneyLimit : JVal := .undefined
  startingMoney : JVal := .undefined
  continueAfterMoneyLimit : JVal := .undefined
  moneyAwarded : JVal := .undefined
  awardInterval : JVal := .undefined
  playAwardSound : JVal := .undefined
  externalInputs : JOpt (List RawExternalInput) := .undefined
  deriving DecidableEq, Repr

/-- The canonical configuration produced by the normalizer (`BaseConfig`).
Scalar fields keep their runtime `JVal` (the source performs no numeric
coercion, so a string stored in `timeLimit` flows through unchanged). -/
structure BaseConfig where
  timeLimit : JVal
  moneyLimit : JVal
  startingMoney : JVal
  continueAfterMoneyLimit : JVal
  inputs : List NInput
  deriving DecidableEq, Repr

/-- `isLegacyConfig`: legacy configs have no `inputs` array and a
non-null `leftButton`. -/
def isLegacyConfig (raw : RawStoredConfig) : Bool :=
  !raw.inputs.isArray && raw.leftButton.notNull

/-- The three legacy screen-button positions, in source order. -/
inductive ButtonPosition where
  | left
  | middle
  | right
  deriving DecidableEq, Repr

/-- The position's lowercase name as used in ids and `buttonActive`. -/
def ButtonPosition.posName : ButtonPosition → String
  | .left => "left"
  | .middle => "middle"
  | .right => "right"

/-- `pos.charAt(0).toUpperCase() + pos.slice(1)`. -/
def ButtonPosition.capName : ButtonPosition → String
  | .left => "Left"
  | .middle => "Middle"
  | .right => "Right"

/-- `raw[pos + "Button"]`. -/
def RawStoredConfig.buttonAt (raw : RawStoredConfig) : ButtonPosition → JOpt RawButton
  | .left => raw.leftButton
  | .middle => raw.middleButton
  | .right => raw.rightButton

/-- The screen input synthesized from one legacy button position, or
`none` when the button object is falsy (`if (!btn) continue`). -/
def legacyScreenInput (raw : RawStoredConfig) (pos : ButtonPosition) : Option NInput :=
  match raw.buttonAt pos with
  | .val btn =>
    let isActive : Bool := raw.buttonActive == JVal.str pos.posName
    some {
      id := "screen-" ++ pos.posName
      name := .str pos.capName
      type := .str "screen"
      shape := jor btn.shape (.str "circle")
      color := jor btn.color (.str "#5ccc96")
      inputCode := .undefined
      inputLabel := .undefined
      isRewarded := .boolean isActive
      moneyAwarded := if isActive then jor raw.moneyAwarded (.num 5) else .num 5
      awardInterval := if isActive then jor raw.awardInterval (.num 10) else .num 10
      playAwardSound := if isActive then jor raw.playAwardSound (.boolean true) else .boolean true
    }
  | _ => none

/-- The physical input synthesized from one legacy `externalInputs` entry. -/
def legacyExternalInput (ext : RawExternalInput) : NInput :=
  { id := ext.id
    name := jor ext.name (.str "")
    type := jor ext.inputType (.str "keyboard")
    shape := .undefined
    color := .undefined
    inputCode := ext.inputCode
    inputLabel := ext.inputLabel
    isRewarded := jor ext.isActive (.boolean false)
    moneyAwarded := jor ext.moneyAwarded (.num 5)
    awardInterval := jor ext.awardInterval (.num 10)
    playAwardSound := jor ext.playAwardSound (.boolean true) }

/-- `convertLegacyConfig`: three screen buttons (skipping falsy ones),
then the external inputs, then the scalar defaults. -/
def convertLegacyConfig (raw : RawStoredConfig) : BaseConfig :=
  let screens := [ButtonPosition.left, ButtonPosition.middle, ButtonPosition.right].filterMap
    (legacyScreenInput raw)
  let externals :=
    match raw.externalInputs with
    | .val l => l.map legacyExternalInput
    | _ => []
  { timeLimit := jor raw.timeLimit (.num 60)
    moneyLimit := jor raw.moneyLimit (.num 1000000)
    startingMoney := jor raw.startingMoney (.num 0)
    continueAfterMoneyLimit := jor raw.continueAfterMoneyLimit (.boolean true)
    inputs := screens ++ externals }

/-- `normalizeConfig`: dispatch on `isLegacyConfig`; the new-format branch
fills scalar defaults and passes `inputs` through (`raw.inputs ?? []`). -/
def normalizeConfig (raw : RawStoredConfig) : BaseConfig :=
  if isLegacyConfig raw then
    convertLegacyConfig raw
  else
    { timeLimit := jor raw.timeLimit (.num 60)
      moneyLimit := jor raw.moneyLimit (.num 1000000)
      startingMoney := jor raw.startingMoney (.num 0)
      continueAfterMoneyLimit := jor raw.continueAfterMoneyLimit (.boolean true)
      inputs := jorList raw.inputs [] }

/-- Re-serializing a normalizer output back into a raw stored object:
the canonical fields keep their values, every legacy-only field is
absent.  This is the round-trip direction used by the idempotence
property. -/
def reserializeConfig (b : BaseConfig) : RawStoredConfig :=
  { inputs := .val b.inputs
    timeLimit := b.timeLimit
    moneyLimit := b.moneyLimit
    startingMoney := b.startingMoney
    continueAfterMoneyLimit := b.continueAfterMoneyLimit }

/-- The structurally empty stored object `{}`. -/
def emptyRaw : RawStoredConfig := {}

/-! ## Session runtime model
(`src/client/src/stores/useSessionStore.ts`, `src/client/src/pages/Session.tsx`)

The session page operates on an already-normalized `SessionConfig`; its
fields are the concrete runtime types the page's arithmetic assumes
(cents as integers).  React-closure semantics matter for the handlers:
a `useCallback` closure reads the state of the render it was created in,
while zustand `set`/`get` read the current store.  Each handler below is
a pure function of the store state at invocation time; where the source
reads a stale closure value we pass that pre-invocation state explicitly.
-/

/-- `InputType` of a configured input. -/
inductive InputType where
  | screen
  | keyboard
  | gamepadButton
  | gamepadAxis
  deriving DecidableEq, Repr

/-- A normalized input as consumed by the session page (fields actually
read by `Session.tsx` and `useExternalInput.ts`). -/
structure InputConfig where
  id : String
  type : InputType
  inputCode : Option String := none
  isRewarded : Bool
  moneyAwarded : ℤ
  awardInterval : ℕ
  playAwardSound : Bool := false
  deriving DecidableEq, Repr

/-- The session-level fields of the normalized config read by the page. -/
structure SessionConfig where
  timeLimit : ℕ
  moneyLimit : ℤ
  startingMoney : ℤ
  continueAfterMoneyLimit : Bool
  inputs : List InputConfig
  deriving DecidableEq, Repr

/-- One record appended to the event log (`api.logEvent`), with the
payload fields the engine computes (`inputName`/`inputType` and the
per-input click map are carried by the source but not needed by any
property; `sessionId` is constant per session). -/
inductive Event where
  | start (moneyCounter : ℤ)
  | click (inputId : String) (awardedCents : ℤ) (moneyCounter : ℤ)
      (totalClicks : ℕ) (moneyLimitReached : Bool) (timeLimitReached : Bool)
  | ended (moneyCounter : ℤ) (moneyLimitReached : Bool)
      (timeLimitReached : Bool) (totalClicks : ℕ)
  deriving DecidableEq, Repr

/-- Whether an event is an `end` record. -/
def Event.isEnd : Event → Bool
  | .ended _ _ _ _ => true
  | _ => false

/-- The zustand store state (`useSessionStore`) plus the append-only
event log the page writes through `api.logEvent`. -/
structure SessionState where
  moneyCounter : ℤ
  totalClicks : ℕ
  inputClickCounts : String → ℕ
  inputIntervalCounters : String → ℕ
  moneyLimitReached : Bool
  timeLimitReached : Bool
  sessionActive : Bool
  eventLog : List Event

/-- Pointwise update of a string-keyed counter map. -/
def updMap (m : String → ℕ) (k : String) (v : ℕ) : String → ℕ :=
  fun x => if x = k then v else m x

/-- Store action `incrementClick`. -/
def incrementClick (s : SessionState) (inputId : String) : SessionState :=
  { s with
    totalClicks := s.totalClicks + 1
    inputClickCounts := updMap s.inputClickCounts inputId (s.inputClickCounts inputId + 1) }

/-- Store action `awardMoney` (reads the current store balance). -/
def awardMoney (s : SessionState) (cents : ℤ) : SessionState :=
  { s with moneyCounter := s.moneyCounter + cents }

/-- `handleMoneyLimitEnd` from `Session.tsx`.  `s0` is the React render
closure the callback captured (the store state at the start of the
enclosing activation): the guard and the logged payload read `s0`, the
mutation applies to the current store state `s`.  When the limit was not
yet flagged it is set; if `continueAfterMoneyLimit` is false the session
is ended and an `end` record is appended. -/
def handleMoneyLimitEnd (cfg : SessionConfig) (s0 s : SessionState) : SessionState :=
  if s0.moneyLimitReached then s
  else
    let s1 := { s with moneyLimitReached := true }
    if cfg.continueAfterMoneyLimit then s1
    else
      { s1 with
        sessionActive := false
        eventLog := s1.eventLog ++
          [Event.ended s0.moneyCounter true s0.timeLimitReached s0.totalClicks] }

/-- `handleTimeLimitEnd` from `Session.tsx`.  It reads fresh state via
`stateRef.current`, guards only on `timeLimitReached`, then flags the
time limit, ends the session, and appends an `end` record. -/
def handleTimeLimitEnd (s : SessionState) : SessionState :=
  if s.timeLimitReached then s
  else
    { s with
      timeLimitReached := true
      sessionActive := false
      eventLog := s.eventLog ++
        [Event.ended s.moneyCounter s.moneyLimitReached true s.totalClicks] }

/-- `handleInputActivation` from `Session.tsx`, returning the new state
and the `awardedCents` computed for the click record.  `s` is both the
current store state and the render closure (they coincide at invocation
start).  Closure reads inside the body (`moneyCounter`,
`moneyLimitReached`, `timeLimitReached`, `stateRef.current`) therefore
refer to `s`, while store actions (`incrementInterval`, `awardMoney`)
read the store as already mutated within this invocation. -/
def handleInputActivationAw (cfg : SessionConfig) (s : SessionState)
    (inputId : String) : SessionState × ℤ :=
  if !s.sessionActive && !(cfg.continueAfterMoneyLimit && s.moneyLimitReached) then (s, 0)
  else
    match cfg.inputs.find? (fun i => i.id == inputId) with
    | none => (s, 0)
    | some inputConfig =>
      let s1 := incrementClick s inputId
      let (s2, awardedCents) :=
        if inputConfig.isRewarded && !s.moneyLimitReached then
          let newInterval := s1.inputIntervalCounters inputId + 1
          let sI := { s1 with
            inputIntervalCounters := updMap s1.inputIntervalCounters inputId newInterval }
          if newInterval ≥ inputConfig.awardInterval then
            let sR := { sI with
              inputIntervalCounters := updMap sI.inputIntervalCounters inputId 0 }
            let potentialNewTotal := s.moneyCounter + inputConfig.moneyAwarded
            if potentialNewTotal ≥ cfg.moneyLimit then
              let a := cfg.moneyLimit - s.moneyCounter
              let sA := awardMoney sR a
              (handleMoneyLimitEnd cfg s sA, a)
            else
              (awardMoney sR inputConfig.moneyAwarded, inputConfig.moneyAwarded)
          else (sI, 0)
        else (s1, 0)
      -- click record: `stateRef.current` still holds the pre-activation
      -- values, manually advanced by one click; the logged balance is the
      -- closure balance plus the award; the limit flags are the stale
      -- closure values.
      ({ s2 with eventLog := s2.eventLog ++
          [Event.click inputId awardedCents (s.moneyCounter + awardedCents)
            (s.totalClicks + 1) s.moneyLimitReached s.timeLimitReached] },
       awardedCents)

/-- `handleInputActivation`, state part. -/
def handleInputActivation (cfg : SessionConfig) (s : SessionState)
    (inputId : String) : SessionState :=
  (handleInputActivationAw cfg s inputId).1

/-- The store state right after `loadSessionConfig` succeeds: `setConfig`
zeroes the counters and sets the balance to `startingMoney`, the `start`
record is appended, `startSession` activates the session and the
time-limit timer is armed. -/
def initState (cfg : SessionConfig) : SessionState :=
  { moneyCounter := cfg.startingMoney
    totalClicks := 0
    inputClickCounts := fun _ => 0
    inputIntervalCounters := fun _ => 0
    moneyLimitReached := false
    timeLimitReached := false
    sessionActive := true
    eventLog := [Event.start cfg.startingMoney] }

/-- A termination-relevant stimulus: the armed time-limit timer firing,
or an input activation (which crosses the ceiling when the award does). -/
inductive Trigger where
  | timeFire
  | activate (inputId : String)
  deriving DecidableEq, Repr

/-- One engine step. -/
def step (cfg : SessionConfig) (s : SessionState) : Trigger → SessionState
  | .timeFire => handleTimeLimitEnd s
  | .activate inputId => handleInputActivation cfg s inputId

/-- Run a sequence of stimuli. -/
def run (cfg : SessionConfig) (s : SessionState) (evs : List Trigger) : SessionState :=
  evs.foldl (step cfg) s

/-- Number of `end` records in a log. -/
def countEnds (log : List Event) : ℕ := (log.filter Event.isEnd).length

/-! ## Input Multiplexer (`src/client/src/lib/useExternalInput.ts`) -/

/-- `lastTriggerRef.current`: last accepted trigger time per `inputId`.
A missing entry reads as `0` (`lastTriggerRef.current[inputId] ?? 0`),
so the total map defaults to `0`. -/
def DebounceState := String → ℤ

/-- The fresh debounce map (`lastTriggerRef.current = {}`). -/
def debounceInit : DebounceState := fun _ => 0

/-- `canTrigger`: drop the activation when it is within `debounceMs` of
the previous accepted one for this `inputId`; otherwise record `now` and
accept.  Returns the decision and the updated map (the map is only
written on acceptance, as in the source). -/
def canTrigger (debounceMs : ℤ) (st : DebounceState) (inputId : String)
    (now : ℤ) : Bool × DebounceState :=
  let last := st inputId
  if now - last < debounceMs then (false, st)
  else (true, fun x => if x = inputId then now else st x)

/-- The default debounce window (`debounceMs = 50`). -/
def defaultDebounceMs : ℤ := 50

/-- `keyboardMapRef`: look up a configured keyboard input by key code.
(The source builds a `Map` keyed by `inputCode`; for distinct codes this
is the first match in the inputs list.) -/
def findKeyboard (inputs : List InputConfig) (code : String) : Option InputConfig :=
  inputs.find? (fun i => i.type == InputType.keyboard && i.inputCode == some code)

/-- A raw stimulus reaching the session page: a screen button click
(the presentation layer calls `handleInputActivation` directly, see
`Session.tsx` `onClick`), or a `keydown` with a key code routed through
the multiplexer.  Each carries its `Date.now()` timestamp. -/
inductive RawInputEvent where
  | screenClick (now : ℤ) (inputId : String)
  | keyDown (now : ℤ) (code : String)
  deriving DecidableEq, Repr

/-- Dispatch one raw stimulus: screen clicks reach
`handleInputActivation` with no debounce; keyboard events are matched
against the binding map and pass through `canTrigger` first. -/
def dispatchEvent (cfg : SessionConfig) (sd : SessionState × DebounceState) :
    RawInputEvent → SessionState × DebounceState
  | .screenClick _ inputId => (handleInputActivation cfg sd.1 inputId, sd.2)
  | .keyDown now code =>
    match findKeyboard cfg.inputs code with
    | none => sd
    | some input =>
      let (ok, d) := canTrigger defaultDebounceMs sd.2 input.id now
      (if ok then handleInputActivation cfg sd.1 input.id else sd.1, d)

/-- Run a sequence of raw stimuli through the dispatcher. -/
def runEvents (cfg : SessionConfig) (sd : SessionState × DebounceState)
    (evs : List RawInputEvent) : SessionState × DebounceState :=
  evs.foldl (dispatchEvent cfg) sd

/-! ### Gamepad polling loop

The `poll` closure walks the configured gamepad inputs each animation
frame; each input's `inputCode` of shape `"gp-g-btn-b"` or
`"gp-g-axis-a-dir"` is modelled in parsed form.  Axis samples are exact
rationals: the loop performs no arithmetic on them, only order
comparisons against the ±0.5 threshold. -/

/-- A parsed gamepad control binding. -/
inductive GpKind where
  | button (btnIndex : ℕ)
  | axisPos (axisIndex : ℕ)
  | axisNeg (axisIndex : ℕ)
  deriving DecidableEq, Repr

/-- One configured gamepad input: its `inputId`, its `inputCode` (the
state key of the previous-sample map), the gamepad index, and the parsed
control. -/
structure GpControl where
  id : String
  code : String
  gpIndex : ℕ
  kind : GpKind
  deriving DecidableEq, Repr

/-- A connected gamepad's instantaneous state. -/
structure Gamepad where
  buttons : ℕ → Bool
  axes : ℕ → ℚ

/-- The `navigator.getGamepads()` snapshot: a possibly-missing gamepad
per index. -/
def GamepadSnapshot := ℕ → Option Gamepad

/-- Whether the control reads as pressed in a snapshot (`gp.buttons[i]
.pressed`, or the axis value beyond the ±0.5 threshold), or `none` when
the gamepad is absent (`if (!gp) continue`). -/
def gpPressed (snap : GamepadSnapshot) (c : GpControl) : Option Bool :=
  match snap c.gpIndex with
  | none => none
  | some gp =>
    some (match c.kind with
      | .button b => gp.buttons b
      | .axisPos a => gp.axes a > mkRat 1 2
      | .axisNeg a => gp.axes a < -(mkRat 1 2))

/-- The polling loop's mutable state: the previous-sample map keyed by
`inputCode`, the debounce map keyed by `inputId`, and the activations
fired so far (in order). -/
structure PollState where
  prev : String → Bool
  last : DebounceState
  fired : List String

/-- The fresh poll state (`prevGamepadStateRef.current = {}`). -/
def pollInit : PollState :=
  { prev := fun _ => false, last := debounceInit, fired := [] }

/-- The body of the `for (const input of gamepadInputsRef.current)` loop
for one control: skip absent gamepads (leaving the previous sample
untouched), fire on a false→true edge that passes `canTrigger`, and
always write the current sample back. -/
def pollControl (now : ℤ) (snap : GamepadSnapshot) (st : PollState)
    (c : GpControl) : PollState :=
  match gpPressed snap c with
  | none => st
  | some isPressed =>
    let wasPressedBefore := st.prev c.code
    let st1 :=
      if isPressed && !wasPressedBefore then
        let (ok, last) := canTrigger defaultDebounceMs st.last c.id now
        { st with last := last, fired := if ok then st.fired ++ [c.id] else st.fired }
      else st
    { st1 with prev := fun x => if x = c.code then isPressed else st1.prev x }

/-- One animation-frame `poll` pass over all configured controls. -/
def pollTick (controls : List GpControl) (now : ℤ) (snap : GamepadSnapshot)
    (st : PollState) : PollState :=
  controls.foldl (pollControl now snap) st

/-- Run the polling loop over a sequence of timestamped snapshots. -/
def runPolls (controls : List GpControl) (samples : List (ℤ × GamepadSnapshot))
    (st : PollState) : PollState :=
  samples.foldl (fun st ts => pollTick controls ts.1 ts.2 st) st

/-- Number of activations fired for one `inputId`. -/
def firedCount (st : PollState) (id : String) : ℕ :=
  (st.fired.filter (fun x => x = id)).length

/-! ## Concrete sessions used by the scenario properties -/

/-- A session with one rewarded screen input paying 10 cents per
activation against a 10-cent limit, with `continueAfterMoneyLimit`
disabled: its first activation crosses the ceiling and ends the
session. -/
def cfgCeiling : SessionConfig :=
  { timeLimit := 60
    moneyLimit := 10
    startingMoney := 0
    continueAfterMoneyLimit := false
    inputs := [{ id := "a", type := .screen, isRewarded := true,
                 moneyAwarded := 10, awardInterval := 1 }] }

/-- The exact-clamp scenario config: `startingMoney = 0`,
`moneyAwarded = 7`, `awardInterval = 1`, `moneyLimit = 10`. -/
def cfgClamp : SessionConfig :=
  { timeLimit := 60
    moneyLimit := 10
    startingMoney := 0
    continueAfterMoneyLimit := true
    inputs := [{ id := "a", type := .screen, isRewarded := true,
                 moneyAwarded := 7, awardInterval := 1 }] }

/-! ## Normalizer lemmas and properties -/

theorem jor_of_nullish {x d : JVal} (h : x.nullish = true) : jor x d = d := by
  simp [jor, h]

theorem jor_of_not_nullish {x d : JVal} (h : x.nullish = false) : jor x d = x := by
  simp [jor, h]

theorem nullish_jor {x d : JVal} (h : d.nullish = false) : (jor x d).nullish = false := by
  unfold jor
  split <;> simp [h, *]

/-- Both normalizer branches produce `timeLimit` as `raw.timeLimit ?? 60`. -/
theorem normalizeConfig_timeLimit (raw : RawStoredConfig) :
    (normalizeConfig raw).timeLimit = jor raw.timeLimit (.num 60) := by
  unfold normalizeConfig convertLegacyConfig
  split <;> rfl

/-- Both normalizer branches produce `moneyLimit` as `raw.moneyLimit ?? 1000000`. -/
theorem normalizeConfig_moneyLimit (raw : RawStoredConfig) :
    (normalizeConfig raw).moneyLimit = jor raw.moneyLimit (.num 1000000) := by
  unfold normalizeConfig convertLegacyConfig
  split <;> rfl

/-- Both normalizer branches produce `startingMoney` as `raw.startingMoney ?? 0`. -/
theorem normalizeConfig_startingMoney (raw : RawStoredConfig) :
    (normalizeConfig raw).startingMoney = jor raw.startingMoney (.num 0) := by
  unfold normalizeConfig convertLegacyConfig
  split <;> rfl

/-- Both normalizer branches produce `continueAfterMoneyLimit` as
`raw.continueAfterMoneyLimit ?? true`. -/
theorem normalizeConfig_continueAfter (raw : RawStoredConfig) :
    (normalizeConfig raw).continueAfterMoneyLimit =
      jor raw.continueAfterMoneyLimit (.boolean true) := by
  unfold normalizeConfig convertLegacyConfig
  split <;> rfl

/-- Renormalizing a reserialized canonical config is the identity as soon
as its scalar fields are not nullish (which every normalizer output
satisfies). -/
theorem normalize_reserialize (b : BaseConfig)
    (h1 : b.timeLimit.nullish = false)
    (h2 : b.moneyLimit.nullish = false)
    (h3 : b.startingMoney.nullish = false)
    (h4 : b.continueAfterMoneyLimit.nullish = false) :
    normalizeConfig (reserializeConfig b) = b := by
  cases b with
  | mk t m sm c ins =>
    simp only [normalizeConfig, reserializeConfig, isLegacyConfig, JOpt.isArray,
      JOpt.notNull, Bool.not_true, Bool.false_and, Bool.false_eq_true, if_false,
      jorList] at *
    simp [jor_of_not_nullish, h1, h2, h3, h4]

/-- A raw stored object whose `timeLimit` arrived as the numeric-looking
string `"120"`. -/
def rawStrTimeLimit : RawStoredConfig := { timeLimit := .str "120" }

/-- C3 counterexample: normalizing the structurally empty object `{}`
yields a config with NO inputs, not one containing a single default
screen input (`isLegacyConfig {}` is false, and the new-format branch
computes `inputs = raw.inputs ?? [] = []`). -/
theorem normalize_empty_not_single_input :
    (normalizeConfig emptyRaw).inputs.length ≠ 1 := by decide

/-- C3 (amended): `normalizeConfig` is total (never fails), and the
structurally empty object yields the all-defaults config — `timeLimit`
60, `moneyLimit` 1000000, `startingMoney` 0, `continueAfterMoneyLimit`
true — with an EMPTY inputs list (no default screen input is
synthesized). -/
theorem normalize_empty_all_defaults :
    normalizeConfig emptyRaw =
      { timeLimit := .num 60, moneyLimit := .num 1000000, startingMoney := .num 0,
        continueAfterMoneyLimit := .boolean true, inputs := [] } := by decide

/-- C4 counterexample: a `timeLimit` stored as the numeric-looking string
`"120"` is passed through by `normalizeConfig` as the string itself — it
is neither coerced to the number 120 nor replaced by the default 60. -/
theorem normalize_string_passthrough :
    (normalizeConfig rawStrTimeLimit).timeLimit = JVal.str "120" ∧
      JVal.str "120" ≠ JVal.num 120 ∧ JVal.str "120" ≠ JVal.num 60 := by decide

/-- C4 (amended): the normalizer performs no numeric parsing at all; each
numeric field is exactly `raw.field ?? default` in both the legacy and
the current-shape branches, so any non-nullish stored value — a string
included — flows through unchanged, and only absent/null fields fall
back to the documented defaults (60, 1000000, 0). -/
theorem normalize_numeric_fields_jor (raw : RawStoredConfig) :
    (normalizeConfig raw).timeLimit = jor raw.timeLimit (.num 60) ∧
    (normalizeConfig raw).moneyLimit = jor raw.moneyLimit (.num 1000000) ∧
    (normalizeConfig raw).startingMoney = jor raw.startingMoney (.num 0) :=
  ⟨normalizeConfig_timeLimit raw, normalizeConfig_moneyLimit raw,
    normalizeConfig_startingMoney raw⟩

/-- C8: the normalizer is idempotent — reserializing a normalizer output
and normalizing again yields the identical canonical config. -/
theorem normalize_idempotent (raw : RawStoredConfig) :
    normalizeConfig (reserializeConfig (normalizeConfig raw)) = normalizeConfig raw := by
  apply normalize_reserialize
  · rw [normalizeConfig_timeLimit]; exact nullish_jor rfl
  · rw [normalizeConfig_moneyLimit]; exact nullish_jor rfl
  · rw [normalizeConfig_startingMoney]; exact nullish_jor rfl
  · rw [normalizeConfig_continueAfter]; exact nullish_jor rfl

/-- C10: whenever the stored `continueAfterMoneyLimit` is absent or null,
both normalizer branches default it to `true`, so by default reaching the
reward ceiling does not end the session. -/
theorem normalize_continueAfter_default (raw : RawStoredConfig)
    (h : raw.continueAfterMoneyLimit.nullish = true) :
    (normalizeConfig raw).continueAfterMoneyLimit = JVal.boolean true := by
  rw [normalizeConfig_continueAfter, jor_of_nullish h]

/-- C10 witness: the empty stored object has a nullish
`continueAfterMoneyLimit`, and normalizing it yields `true`. -/
theorem normalize_continueAfter_default_witness :
    (emptyRaw.continueAfterMoneyLimit.nullish = true) ∧
      (normalizeConfig emptyRaw).continueAfterMoneyLimit = JVal.boolean true :=
  ⟨by decide, normalize_continueAfter_default emptyRaw (by decide)⟩

/-! ## Reward/limit state machine lemmas -/

theorem handleMoneyLimitEnd_moneyCounter (cfg : SessionConfig) (s0 s : SessionState) :
    (handleMoneyLimitEnd cfg s0 s).moneyCounter = s.moneyCounter := by
  unfold handleMoneyLimitEnd
  split_ifs <;> rfl

theorem handleMoneyLimitEnd_totalClicks (cfg : SessionConfig) (s0 s : SessionState) :
    (handleMoneyLimitEnd cfg s0 s).totalClicks = s.totalClicks := by
  unfold handleMoneyLimitEnd
  split_ifs <;> rfl

theorem handleMoneyLimitEnd_mlr (cfg : SessionConfig) (s0 s : SessionState)
    (h : s0.moneyLimitReached = false) :
    (handleMoneyLimitEnd cfg s0 s).moneyLimitReached = true := by
  unfold handleMoneyLimitEnd
  split_ifs <;> simp_all

theorem handleMoneyLimitEnd_sessionActive (cfg : SessionConfig) (s0 s : SessionState)
    (h : cfg.continueAfterMoneyLimit = true) :
    (handleMoneyLimitEnd cfg s0 s).sessionActive = s.sessionActive := by
  unfold handleMoneyLimitEnd
  split_ifs <;> simp_all

/-- One activation never takes the balance above the ceiling when it was
not above it before: the full-award branch is only taken when the
tentative total stays strictly below the limit, and the clamp branch
lands exactly on it. -/
theorem activation_money_le (cfg : SessionConfig) (s : SessionState) (inputId : String)
    (h : s.moneyCounter ≤ cfg.moneyLimit) :
    (handleInputActivationAw cfg s inputId).1.moneyCounter ≤ cfg.moneyLimit := by
  unfold handleInputActivationAw
  split
  · exact h
  · split
    · exact h
    · simp only [incrementClick, awardMoney, handleMoneyLimitEnd]
      split_ifs <;> simp_all <;> omega

/-- The time-limit handler never changes the balance. -/
theorem handleTimeLimitEnd_moneyCounter (s : SessionState) :
    (handleTimeLimitEnd s).moneyCounter = s.moneyCounter := by
  unfold handleTimeLimitEnd
  split_ifs <;> rfl

/-- Balance bound is preserved by every engine step. -/
theorem step_money_le (cfg : SessionConfig) (s : SessionState) (ev : Trigger)
    (h : s.moneyCounter ≤ cfg.moneyLimit) :
    (step cfg s ev).moneyCounter ≤ cfg.moneyLimit := by
  cases ev with
  | timeFire => rw [step, handleTimeLimitEnd_moneyCounter]; exact h
  | activate inputId => exact activation_money_le cfg s inputId h

/-- Balance bound is preserved by every run of the engine. -/
theorem run_money_le (cfg : SessionConfig) (evs : List Trigger) :
    ∀ s : SessionState, s.moneyCounter ≤ cfg.moneyLimit →
      (run cfg s evs).moneyCounter ≤ cfg.moneyLimit := by
  induction evs with
  | nil => exact fun s h => h
  | cons ev rest ih =>
    intro s h
    exact ih (step cfg s ev) (step_money_le cfg s ev h)

/-- In the ceiling-crossing branch the award is computed as
`moneyLimit - moneyCounter` from the pre-mutation balance, the resulting
balance is exactly the limit, and the limit flag is raised. -/
theorem activation_clamp (cfg : SessionConfig) (s : SessionState) (inputId : String)
    (ic : InputConfig)
    (hact : s.sessionActive = true)
    (hfind : cfg.inputs.find? (fun i => i.id == inputId) = some ic)
    (hrew : ic.isRewarded = true)
    (hmlr : s.moneyLimitReached = false)
    (hint : s.inputIntervalCounters inputId + 1 ≥ ic.awardInterval)
    (hcross : s.moneyCounter + ic.moneyAwarded ≥ cfg.moneyLimit) :
    (handleInputActivationAw cfg s inputId).2 = cfg.moneyLimit - s.moneyCounter ∧
    (handleInputActivationAw cfg s inputId).1.moneyCounter = cfg.moneyLimit ∧
    (handleInputActivationAw cfg s inputId).1.moneyLimitReached = true := by
  unfold handleInputActivationAw
  simp only [hact, hfind, hrew, hmlr, incrementClick, awardMoney, handleMoneyLimitEnd]
  split_ifs <;> simp_all <;> omega

/-- C2: for every session and every stimulus sequence, a balance that
starts at or below the ceiling stays at or below it after any
activation; and in the ceiling-crossing branch the applied award is
clamped to `moneyLimit - moneyCounter`, computed from the balance before
it is mutated, landing exactly on the ceiling. -/
theorem balance_never_exceeds_ceiling :
    (∀ (cfg : SessionConfig) (s : SessionState) (evs : List Trigger),
      s.moneyCounter ≤ cfg.moneyLimit →
      (run cfg s evs).moneyCounter ≤ cfg.moneyLimit) ∧
    (∀ (cfg : SessionConfig) (s : SessionState) (inputId : String) (ic : InputConfig),
      s.sessionActive = true →
      cfg.inputs.find? (fun i => i.id == inputId) = some ic →
      ic.isRewarded = true →
      s.moneyLimitReached = false →
      s.inputIntervalCounters inputId + 1 ≥ ic.awardInterval →
      s.moneyCounter + ic.moneyAwarded ≥ cfg.moneyLimit →
      (handleInputActivationAw cfg s inputId).2 = cfg.moneyLimit - s.moneyCounter ∧
      (handleInputActivationAw cfg s inputId).1.moneyCounter = cfg.moneyLimit) :=
  ⟨fun cfg s evs h => run_money_le cfg evs s h,
   fun cfg s inputId ic hact hfind hrew hmlr hint hcross =>
     ⟨(activation_clamp cfg s inputId ic hact hfind hrew hmlr hint hcross).1,
      (activation_clamp cfg s inputId ic hact hfind hrew hmlr hint hcross).2.1⟩⟩

/-- C2 witness: on the exact-clamp session, three activations keep the
balance at the 10-cent ceiling, and at balance 7 the crossing activation
awards `10 - 7`. -/
theorem balance_never_exceeds_ceiling_witness :
    ((initState cfgClamp).moneyCounter ≤ cfgClamp.moneyLimit ∧
      (run cfgClamp (initState cfgClamp)
        [.activate "a", .activate "a", .activate "a"]).moneyCounter ≤ cfgClamp.moneyLimit) ∧
    ((handleInputActivation cfgClamp (initState cfgClamp) "a").sessionActive = true ∧
      (handleInputActivationAw cfgClamp
        (handleInputActivation cfgClamp (initState cfgClamp) "a") "a").2 =
        cfgClamp.moneyLimit -
          (handleInputActivation cfgClamp (initState cfgClamp) "a").moneyCounter) :=
  ⟨⟨by decide,
    balance_never_exceeds_ceiling.1 cfgClamp (initState cfgClamp)
      [.activate "a", .activate "a", .activate "a"] (by decide)⟩,
   ⟨by decide,
    (balance_never_exceeds_ceiling.2 cfgClamp
      (handleInputActivation cfgClamp (initState cfgClamp) "a") "a"
      { id := "a", type := .screen, isRewarded := true, moneyAwarded := 7, awardInterval := 1 }
      (by decide) (by decide) (by decide) (by decide) (by decide) (by decide)).1⟩⟩

/-- C5: exact-clamp scenario (`startingMoney = 0`, `moneyAwarded = 7`,
`awardInterval = 1`, `moneyLimit = 10`): the first activation awards 7
(balance 7, limit flag still down), the second awards exactly 3 — not 7 —
clamping the balance to 10 and raising the money-limit flag, which was
not raised on the first. -/
theorem exact_clamp_scenario :
    ((handleInputActivationAw cfgClamp (initState cfgClamp) "a").2 = 7) ∧
    ((handleInputActivationAw cfgClamp (initState cfgClamp) "a").1.moneyCounter = 7) ∧
    ((handleInputActivationAw cfgClamp (initState cfgClamp) "a").1.moneyLimitReached = false) ∧
    ((handleInputActivationAw cfgClamp
        (handleInputActivation cfgClamp (initState cfgClamp) "a") "a").2 = 3) ∧
    ((handleInputActivationAw cfgClamp
        (handleInputActivation cfgClamp (initState cfgClamp) "a") "a").1.moneyCounter = 10) ∧
    ((handleInputActivationAw cfgClamp
        (handleInputActivation cfgClamp (initState cfgClamp) "a") "a").1.moneyLimitReached
      = true) := by
  decide

/-- C9: when the balance already exceeds the money limit (for example
because `startingMoney > moneyLimit`) and a rewarded input completes its
award interval while the limit flag is down, the computed award
`moneyLimit - balance` is negative and is applied as-is: the balance
DECREASES to exactly `moneyLimit` and the limit flag is raised. -/
theorem negative_award_on_excess_balance (cfg : SessionConfig) (s : SessionState)
    (inputId : String) (ic : InputConfig)
    (hact : s.sessionActive = true)
    (hfind : cfg.inputs.find? (fun i => i.id == inputId) = some ic)
    (hrew : ic.isRewarded = true)
    (hmlr : s.moneyLimitReached = false)
    (hint : s.inputIntervalCounters inputId + 1 ≥ ic.awardInterval)
    (hstart : s.moneyCounter > cfg.moneyLimit)
    (hpos : 0 ≤ ic.moneyAwarded) :
    (handleInputActivationAw cfg s inputId).2 = cfg.moneyLimit - s.moneyCounter ∧
    (handleInputActivationAw cfg s inputId).2 < 0 ∧
    (handleInputActivationAw cfg s inputId).1.moneyCounter = cfg.moneyLimit ∧
    (handleInputActivationAw cfg s inputId).1.moneyCounter < s.moneyCounter ∧
    (handleInputActivationAw cfg s inputId).1.moneyLimitReached = true := by
  obtain ⟨h1, h2, h3⟩ :=
    activation_clamp cfg s inputId ic hact hfind hrew hmlr hint (by omega)
  exact ⟨h1, by rw [h1]; omega, h2, by rw [h2]; omega, h3⟩

/-- A session whose starting balance (50) already exceeds the money
limit (10). -/
def cfgExcess : SessionConfig :=
  { timeLimit := 60
    moneyLimit := 10
    startingMoney := 50
    continueAfterMoneyLimit := true
    inputs := [{ id := "a", type := .screen, isRewarded := true,
                 moneyAwarded := 7, awardInterval := 1 }] }

/-- C9 witness: with starting balance 50 and limit 10, the first
activation applies the negative award `10 - 50 = -40`, dropping the
balance to 10 and raising the flag. -/
theorem negative_award_on_excess_balance_witness :
    ((initState cfgExcess).sessionActive = true ∧
      (initState cfgExcess).moneyCounter > cfgExcess.moneyLimit) ∧
    ((handleInputActivationAw cfgExcess (initState cfgExcess) "a").2 =
        cfgExcess.moneyLimit - (initState cfgExcess).moneyCounter ∧
      (handleInputActivationAw cfgExcess (initState cfgExcess) "a").2 < 0 ∧
      (handleInputActivationAw cfgExcess (initState cfgExcess) "a").1.moneyCounter =
        cfgExcess.moneyLimit ∧
      (handleInputActivationAw cfgExcess (initState cfgExcess) "a").1.moneyCounter <
        (initState cfgExcess).moneyCounter ∧
      (handleInputActivationAw cfgExcess (initState cfgExcess) "a").1.moneyLimitReached
        = true) :=
  ⟨⟨by decide, by decide⟩,
   negative_award_on_excess_balance cfgExcess (initState cfgExcess) "a"
     { id := "a", type := .screen, isRewarded := true, moneyAwarded := 7, awardInterval := 1 }
     (by decide) (by decide) (by decide) (by decide) (by decide) (by decide) (by decide)⟩

/-- C1: the termination guards are per-cause, not per-phase, and the
time-limit timer is not cancelled when the ceiling ends the session.
With `continueAfterMoneyLimit = false`, a ceiling-crossing activation
followed by the timer firing appends TWO `end` records (the timer guard
only checks `timeLimitReached`, which is still false), refuting the
claimed idempotent single `end`; in the opposite order the activation
guard blocks the second trigger and exactly one `end` is appended. -/
theorem double_end_on_ceiling_then_timer :
    countEnds ((run cfgCeiling (initState cfgCeiling)
        [.activate "a", .timeFire]).eventLog) = 2 ∧
    (run cfgCeiling (initState cfgCeiling)
        [.activate "a", .timeFire]).timeLimitReached = true ∧
    countEnds ((run cfgCeiling (initState cfgCeiling)
        [.timeFire, .activate "a"]).eventLog) = 1 := by
  decide

/-! ## Debounce lemmas -/

/-- An active-session activation on a configured input always counts:
`incrementClick` runs before any reward logic, and nothing later touches
the click counters. -/
theorem activation_totalClicks (cfg : SessionConfig) (s : SessionState)
    (inputId : String) (ic : InputConfig)
    (hact : s.sessionActive = true)
    (hfind : cfg.inputs.find? (fun i => i.id == inputId) = some ic) :
    (handleInputActivationAw cfg s inputId).1.totalClicks = s.totalClicks + 1 := by
  unfold handleInputActivationAw
  simp only [hact, hfind, incrementClick, awardMoney, handleMoneyLimitEnd]
  split_ifs <;> simp_all

/-- With `continueAfterMoneyLimit = true` no activation deactivates the
session (`endSession` is only reached on the no-continuation path). -/
theorem activation_sessionActive (cfg : SessionConfig) (s : SessionState)
    (inputId : String) (hcont : cfg.continueAfterMoneyLimit = true) :
    (handleInputActivationAw cfg s inputId).1.sessionActive = s.sessionActive := by
  unfold handleInputActivationAw
  simp only [incrementClick, awardMoney, handleMoneyLimitEnd, hcont]
  split
  · rfl
  · split
    · rfl
    · split_ifs <;> simp_all

/-- A session with a single non-rewarded screen input. -/
def cfgScreenOnly : SessionConfig :=
  { timeLimit := 60
    moneyLimit := 1000000
    startingMoney := 0
    continueAfterMoneyLimit := true
    inputs := [{ id := "b", type := .screen, isRewarded := false,
                 moneyAwarded := 0, awardInterval := 1 }] }

/-- A session with a single keyboard input bound to `KeyA`. -/
def cfgKeyboard : SessionConfig :=
  { timeLimit := 60
    moneyLimit := 1000000
    startingMoney := 0
    continueAfterMoneyLimit := true
    inputs := [{ id := "k", type := .keyboard, inputCode := some "KeyA",
                 isRewarded := false, moneyAwarded := 0, awardInterval := 1 }] }

/-- The keyboard input of `cfgKeyboard`. -/
def kbInput : InputConfig :=
  { id := "k", type := .keyboard, inputCode := some "KeyA",
    isRewarded := false, moneyAwarded := 0, awardInterval := 1 }

/-- C6 counterexample: screen clicks reach `handleInputActivation`
directly, bypassing `canTrigger`, so two clicks on the same screen input
only 10 ms apart are BOTH counted — they do not collapse to one. -/
theorem screen_clicks_not_debounced :
    (runEvents cfgScreenOnly (initState cfgScreenOnly, debounceInit)
      [.screenClick 1000 "b", .screenClick 1010 "b"]).1.totalClicks = 2 ∧
    (runEvents cfgScreenOnly (initState cfgScreenOnly, debounceInit)
      [.screenClick 1000 "b", .screenClick 1010 "b"]).1.inputClickCounts "b" = 2 := by
  decide

/-- C6 (amended): only PHYSICAL activations (keyboard, and the gamepad
polling loop, which shares `canTrigger`) are subject to the per-`inputId`
50 ms re-trigger window: two keydowns on the same binding closer than the
window collapse to one counted activation (the second is dropped, not
queued), while two spaced at least the window apart both count.  Screen
clicks bypass the debounce entirely. -/
theorem physical_debounce (cfg : SessionConfig) (s : SessionState) (ic : InputConfig)
    (code : String) (t1 t2 : ℤ)
    (hact : s.sessionActive = true)
    (hcont : cfg.continueAfterMoneyLimit = true)
    (hk : findKeyboard cfg.inputs code = some ic)
    (hfind : ∃ ic2, cfg.inputs.find? (fun i => i.id == ic.id) = some ic2)
    (ht1 : defaultDebounceMs ≤ t1) :
    (t2 - t1 < defaultDebounceMs →
      (runEvents cfg (s, debounceInit) [.keyDown t1 code, .keyDown t2 code]).1.totalClicks
        = s.totalClicks + 1) ∧
    (defaultDebounceMs ≤ t2 - t1 →
      (runEvents cfg (s, debounceInit) [.keyDown t1 code, .keyDown t2 code]).1.totalClicks
        = s.totalClicks + 2) := by
  obtain ⟨ic2, hic2⟩ := hfind
  simp only [defaultDebounceMs] at ht1 ⊢
  have hs1total : (handleInputActivation cfg s ic.id).totalClicks = s.totalClicks + 1 :=
    activation_totalClicks cfg s ic.id ic2 hact hic2
  have hs1act : (handleInputActivation cfg s ic.id).sessionActive = true := by
    show (handleInputActivationAw cfg s ic.id).1.sessionActive = true
    rw [activation_sessionActive cfg s ic.id hcont]; exact hact
  have hs2total : (handleInputActivation cfg (handleInputActivation cfg s ic.id) ic.id).totalClicks
      = s.totalClicks + 2 := by
    rw [show handleInputActivation cfg (handleInputActivation cfg s ic.id) ic.id
        = (handleInputActivationAw cfg (handleInputActivation cfg s ic.id) ic.id).1 from rfl,
      activation_totalClicks cfg _ ic.id ic2 hs1act hic2, hs1total]
  constructor <;> intro hd <;>
    simp only [runEvents, List.foldl, dispatchEvent, hk, canTrigger, debounceInit,
      defaultDebounceMs, sub_zero] <;>
    simp only [eq_false (show ¬ (t1 < 50) by omega), if_false] <;>
    simp only [if_true, eq_self_iff_true, ite_true, if_pos rfl]
  · simp [hd, hs1total]
  · simp [eq_false (show ¬ (t2 - t1 < 50) by omega), hs2total]

/-- C6 witness: two `KeyA` keydowns 60 ms apart on the keyboard session
both count. -/
theorem physical_debounce_witness :
    (findKeyboard cfgKeyboard.inputs "KeyA" = some kbInput ∧
      defaultDebounceMs ≤ (1000 : ℤ) ∧ defaultDebounceMs ≤ (1060 : ℤ) - 1000) ∧
    (runEvents cfgKeyboard (initState cfgKeyboard, debounceInit)
      [.keyDown 1000 "KeyA", .keyDown 1060 "KeyA"]).1.totalClicks
      = (initState cfgKeyboard).totalClicks + 2 :=
  ⟨⟨by decide, by decide, by decide⟩,
   (physical_debounce cfgKeyboard (initState cfgKeyboard) kbInput "KeyA" 1000 1060
     (by decide) (by decide) (by decide) ⟨kbInput, by decide⟩ (by decide)).2 (by decide)⟩

/-! ## Gamepad edge-detection lemmas -/

/-- While the previous sample is already pressed and the control stays
pressed, no further activation fires and the edge state stays pressed. -/
theorem runPolls_held (c : GpControl) (samples : List (ℤ × GamepadSnapshot)) :
    ∀ st : PollState, st.prev c.code = true →
      (∀ ts ∈ samples, gpPressed ts.2 c = some true) →
      (runPolls [c] samples st).fired = st.fired ∧
      (runPolls [c] samples st).prev c.code = true ∧
      (runPolls [c] samples st).last = st.last := by
  induction samples with
  | nil => exact fun st h _ => ⟨rfl, h, rfl⟩
  | cons ts rest ih =>
    intro st hprev hpress
    have hhead : gpPressed ts.2 c = some true := hpress ts (by simp)
    have hstep : pollTick [c] ts.1 ts.2 st =
        { st with prev := fun x => if x = c.code then true else st.prev x } := by
      simp [pollTick, pollControl, hhead, hprev]
    have hrest := ih { st with prev := fun x => if x = c.code then true else st.prev x }
      (by simp) (fun u hu => hpress u (by simp [hu]))
    simpa [runPolls, hstep] using hrest

/-- A pressed sample on a released edge state that clears the debounce
window fires exactly one activation and records the press. -/
theorem pollTick_fire (c : GpControl) (t : ℤ) (snap : GamepadSnapshot) (st : PollState)
    (hpress : gpPressed snap c = some true)
    (hprev : st.prev c.code = false)
    (hdeb : defaultDebounceMs ≤ t - st.last c.id) :
    (pollTick [c] t snap st).fired = st.fired ++ [c.id] ∧
    (pollTick [c] t snap st).prev c.code = true ∧
    (pollTick [c] t snap st).last c.id = t := by
  simp only [defaultDebounceMs] at hdeb
  simp [pollTick, pollControl, hpress, hprev, canTrigger, defaultDebounceMs,
    eq_false (show ¬ (t - st.last c.id < 50) by omega)]

/-- While the control reads released, nothing fires, the debounce map is
untouched, and a nonempty run leaves the edge state released. -/
theorem runPolls_released (c : GpControl) (samples : List (ℤ × GamepadSnapshot)) :
    ∀ st : PollState,
      (∀ ts ∈ samples, gpPressed ts.2 c = some false) →
      (runPolls [c] samples st).fired = st.fired ∧
      (runPolls [c] samples st).last = st.last ∧
      ((runPolls [c] samples st).prev c.code
        = if samples.isEmpty then st.prev c.code else false) := by
  induction samples with
  | nil => exact fun st _ => ⟨rfl, rfl, by simp [runPolls]⟩
  | cons ts rest ih =>
    intro st hpress
    have hhead : gpPressed ts.2 c = some false := hpress ts (by simp)
    have hstep : pollTick [c] ts.1 ts.2 st =
        { st with prev := fun x => if x = c.code then false else st.prev x } := by
      simp [pollTick, pollControl, hhead]
    have hrest := ih { st with prev := fun x => if x = c.code then false else st.prev x }
      (fun u hu => hpress u (by simp [hu]))
    have hunf : runPolls [c] (ts :: rest) st
        = runPolls [c] rest (pollTick [c] ts.1 ts.2 st) := rfl
    refine ⟨?_, ?_, ?_⟩
    · rw [hunf, hstep]; exact hrest.1
    · rw [hunf, hstep]; exact hrest.2.1
    · rw [hunf, hstep, hrest.2.2]
      simp only [List.isEmpty_cons, Bool.false_eq_true, if_false]
      split_ifs <;> simp

theorem runPolls_append (c : List GpControl) (a b : List (ℤ × GamepadSnapshot))
    (st : PollState) :
    runPolls c (a ++ b) st = runPolls c b (runPolls c a st) := by
  simp [runPolls, List.foldl_append]

/-- A control held past threshold for a whole poll sequence fires exactly
once, on the initial false→true edge. -/
theorem runPolls_one_while_held (c : GpControl) (t0 : ℤ) (snap0 : GamepadSnapshot)
    (rest : List (ℤ × GamepadSnapshot))
    (ht0 : defaultDebounceMs ≤ t0)
    (h0 : gpPressed snap0 c = some true)
    (hr : ∀ ts ∈ rest, gpPressed ts.2 c = some true) :
    firedCount (runPolls [c] ((t0, snap0) :: rest) pollInit) c.id = 1 := by
  have hfire := pollTick_fire c t0 snap0 pollInit h0 rfl
    (by simpa [pollInit, debounceInit] using ht0)
  have hheld := runPolls_held c rest (pollTick [c] t0 snap0 pollInit) hfire.2.1 hr
  have hunf : runPolls [c] ((t0, snap0) :: rest) pollInit
      = runPolls [c] rest (pollTick [c] t0 snap0 pollInit) := rfl
  rw [firedCount, hunf, hheld.1, hfire.1]
  simp [pollInit]

/-- A control that is held, released below threshold, and crosses the
threshold again fires exactly twice. -/
theorem runPolls_two_on_recross (c : GpControl)
    (t0 : ℤ) (snap0 : GamepadSnapshot) (r0 : List (ℤ × GamepadSnapshot))
    (tm : ℤ) (snapm : GamepadSnapshot) (rm : List (ℤ × GamepadSnapshot))
    (t2 : ℤ) (snap2 : GamepadSnapshot) (r2 : List (ℤ × GamepadSnapshot))
    (ht0 : defaultDebounceMs ≤ t0)
    (h0 : gpPressed snap0 c = some true)
    (hr0 : ∀ ts ∈ r0, gpPressed ts.2 c = some true)
    (hm : gpPressed snapm c = some false)
    (hrm : ∀ ts ∈ rm, gpPressed ts.2 c = some false)
    (h2 : gpPressed snap2 c = some true)
    (hr2 : ∀ ts ∈ r2, gpPressed ts.2 c = some true)
    (hdeb2 : defaultDebounceMs ≤ t2 - t0) :
    firedCount (runPolls [c]
      (((t0, snap0) :: r0) ++ ((tm, snapm) :: rm) ++ ((t2, snap2) :: r2))
      pollInit) c.id = 2 := by
  have hfire := pollTick_fire c t0 snap0 pollInit h0 rfl
    (by simpa [pollInit, debounceInit] using ht0)
  have hheld := runPolls_held c r0 (pollTick [c] t0 snap0 pollInit) hfire.2.1 hr0
  set stA := runPolls [c] ((t0, snap0) :: r0) pollInit with hstA
  have hAfired : stA.fired = [c.id] := by
    rw [hstA, show runPolls [c] ((t0, snap0) :: r0) pollInit
        = runPolls [c] r0 (pollTick [c] t0 snap0 pollInit) from rfl, hheld.1, hfire.1]
    simp [pollInit]
  have hAlast : stA.last c.id = t0 := by
    rw [hstA, show runPolls [c] ((t0, snap0) :: r0) pollInit
        = runPolls [c] r0 (pollTick [c] t0 snap0 pollInit) from rfl, hheld.2.2]
    exact hfire.2.2
  have hrel := runPolls_released c ((tm, snapm) :: rm) stA
    (by intro u hu
        rcases List.mem_cons.mp hu with h | h
        · subst h; exact hm
        · exact hrm u h)
  set stB := runPolls [c] ((tm, snapm) :: rm) stA with hstB
  have hBfired : stB.fired = [c.id] := by rw [hstB, hrel.1, hAfired]
  have hBlast : stB.last c.id = t0 := by rw [hstB, hrel.2.1, hAlast]
  have hBprev : stB.prev c.code = false := by
    rw [hstB, hrel.2.2]; simp
  have hfire2 := pollTick_fire c t2 snap2 stB h2 hBprev (by rw [hBlast]; exact hdeb2)
  have hheld2 := runPolls_held c r2 (pollTick [c] t2 snap2 stB) hfire2.2.1 hr2
  rw [runPolls_append, runPolls_append, ← hstA, ← hstB,
    show runPolls [c] ((t2, snap2) :: r2) stB
      = runPolls [c] r2 (pollTick [c] t2 snap2 stB) from rfl,
    firedCount, hheld2.1, hfire2.1, hBfired]
  simp

/-- The components of the poll state owned by one control: its edge
state (keyed by `inputCode`), its debounce stamp (keyed by `inputId`),
and its activation count. -/
def cview (st : PollState) (c : GpControl) : Bool × ℤ × ℕ :=
  (st.prev c.code, st.last c.id, firedCount st c.id)

/-- The action of one poll pass on a control's own components, as a pure
function of those components and the control's sample. -/
def viewStep (v : Bool × ℤ × ℕ) (press : Option Bool) (t : ℤ) : Bool × ℤ × ℕ :=
  match press with
  | none => v
  | some p =>
    if p && !v.1 then
      if t - v.2.1 < defaultDebounceMs then (p, v.2.1, v.2.2)
      else (p, t, v.2.2 + 1)
    else (p, v.2.1, v.2.2)

/-- A control's own components evolve by `viewStep` under `pollControl`. -/
theorem pollControl_view (t : ℤ) (snap : GamepadSnapshot) (st : PollState)
    (c : GpControl) :
    cview (pollControl t snap st c) c = viewStep (cview st c) (gpPressed snap c) t := by
  cases hgp : gpPressed snap c with
  | none => simp [pollControl, cview, viewStep, hgp]
  | some p =>
    simp only [pollControl, cview, viewStep, hgp, canTrigger, defaultDebounceMs]
    split_ifs <;>
      simp_all [firedCount, List.filter_append]

/-- `pollControl` for one control leaves every other control's
components untouched. -/
theorem pollControl_frame (t : ℤ) (snap : GamepadSnapshot) (st : PollState)
    (d c : GpControl) (hcode : d.code ≠ c.code) (hid : d.id ≠ c.id) :
    cview (pollControl t snap st d) c = cview st c := by
  cases hgp : gpPressed snap d with
  | none => simp [pollControl, cview, hgp]
  | some p =>
    simp only [pollControl, cview, hgp, canTrigger]
    split_ifs <;>
      simp_all [firedCount, List.filter_append, Ne.symm hcode, Ne.symm hid]

/-- Running the two-control loop leaves the first control's components
exactly as if it were polled alone. -/
theorem runPolls_pair_fst (cp cn : GpControl) (hcode : cp.code ≠ cn.code)
    (hid : cp.id ≠ cn.id) (samples : List (ℤ × GamepadSnapshot)) :
    ∀ st2 st1 : PollState, cview st2 cp = cview st1 cp →
      cview (runPolls [cp, cn] samples st2) cp = cview (runPolls [cp] samples st1) cp := by
  induction samples with
  | nil => exact fun _ _ h => h
  | cons ts rest ih =>
    intro st2 st1 h
    apply ih
    calc cview (pollControl ts.1 ts.2 (pollControl ts.1 ts.2 st2 cp) cn) cp
        = cview (pollControl ts.1 ts.2 st2 cp) cp :=
          pollControl_frame ts.1 ts.2 _ cn cp (Ne.symm hcode) (Ne.symm hid)
      _ = viewStep (cview st2 cp) (gpPressed ts.2 cp) ts.1 := pollControl_view ts.1 ts.2 st2 cp
      _ = viewStep (cview st1 cp) (gpPressed ts.2 cp) ts.1 := by rw [h]
      _ = cview (pollControl ts.1 ts.2 st1 cp) cp := (pollControl_view ts.1 ts.2 st1 cp).symm

/-- Running the two-control loop leaves the second control's components
exactly as if it were polled alone. -/
theorem runPolls_pair_snd (cp cn : GpControl) (hcode : cp.code ≠ cn.code)
    (hid : cp.id ≠ cn.id) (samples : List (ℤ × GamepadSnapshot)) :
    ∀ st2 st1 : PollState, cview st2 cn = cview st1 cn →
      cview (runPolls [cp, cn] samples st2) cn = cview (runPolls [cn] samples st1) cn := by
  induction samples with
  | nil => exact fun _ _ h => h
  | cons ts rest ih =>
    intro st2 st1 h
    apply ih
    calc cview (pollControl ts.1 ts.2 (pollControl ts.1 ts.2 st2 cp) cn) cn
        = viewStep (cview (pollControl ts.1 ts.2 st2 cp) cn) (gpPressed ts.2 cn) ts.1 :=
          pollControl_view ts.1 ts.2 _ cn
      _ = viewStep (cview st2 cn) (gpPressed ts.2 cn) ts.1 := by
          rw [pollControl_frame ts.1 ts.2 st2 cp cn hcode hid]
      _ = viewStep (cview st1 cn) (gpPressed ts.2 cn) ts.1 := by rw [h]
      _ = cview (pollControl ts.1 ts.2 st1 cn) cn := (pollControl_view ts.1 ts.2 st1 cn).symm

/-- A gamepad at index 0 with its axis 0 pushed to 3/4 of full range. -/
def gpHeld : GamepadSnapshot := fun i =>
  if i = 0 then some { buttons := fun _ => false, axes := fun _ => mkRat 3 4 } else none

/-- A gamepad at index 0 with its axis 0 centered. -/
def gpIdle : GamepadSnapshot := fun i =>
  if i = 0 then some { buttons := fun _ => false, axes := fun _ => 0 } else none

/-- The positive-direction logical control of axis 0
(`inputCode "gp-0-axis-0-pos"`). -/
def axPos : GpControl :=
  { id := "axis-pos", code := "gp-0-axis-0-pos", gpIndex := 0, kind := .axisPos 0 }

/-- The negative-direction logical control of axis 0
(`inputCode "gp-0-axis-0-neg"`). -/
def axNeg : GpControl :=
  { id := "axis-neg", code := "gp-0-axis-0-neg", gpIndex := 0, kind := .axisNeg 0 }

/-- C7: for a device axis control, (1) a poll sequence in which the axis
stays continuously past its ±0.5 threshold fires exactly one activation,
on the initial false→true edge; (2) dropping below threshold and
re-crossing fires a second; (3) the positive and negative directions of
one axis are independent logical controls: polled together, each one's
edge state, debounce stamp and activation count are exactly what polling
it alone produces.  The timing hypotheses reflect the shared debounce:
poll timestamps come from `Date.now()` (so the first is at least one
window past the map's zero default) and the re-cross clears the 50 ms
window. -/
theorem axis_edge_detection :
    (∀ (c : GpControl) (a : ℕ), (c.kind = .axisPos a ∨ c.kind = .axisNeg a) →
      ∀ (t0 : ℤ) (snap0 : GamepadSnapshot) (rest : List (ℤ × GamepadSnapshot)),
        defaultDebounceMs ≤ t0 →
        gpPressed snap0 c = some true →
        (∀ ts ∈ rest, gpPressed ts.2 c = some true) →
        firedCount (runPolls [c] ((t0, snap0) :: rest) pollInit) c.id = 1) ∧
    (∀ (c : GpControl) (a : ℕ), (c.kind = .axisPos a ∨ c.kind = .axisNeg a) →
      ∀ (t0 : ℤ) (snap0 : GamepadSnapshot) (r0 : List (ℤ × GamepadSnapshot))
        (tm : ℤ) (snapm : GamepadSnapshot) (rm : List (ℤ × GamepadSnapshot))
        (t2 : ℤ) (snap2 : GamepadSnapshot) (r2 : List (ℤ × GamepadSnapshot)),
        defaultDebounceMs ≤ t0 →
        gpPressed snap0 c = some true →
        (∀ ts ∈ r0, gpPressed ts.2 c = some true) →
        gpPressed snapm c = some false →
        (∀ ts ∈ rm, gpPressed ts.2 c = some false) →
        gpPressed snap2 c = some true →
        (∀ ts ∈ r2, gpPressed ts.2 c = some true) →
        defaultDebounceMs ≤ t2 - t0 →
        firedCount (runPolls [c]
          (((t0, snap0) :: r0) ++ ((tm, snapm) :: rm) ++ ((t2, snap2) :: r2))
          pollInit) c.id = 2) ∧
    (∀ (cp cn : GpControl) (a : ℕ),
      cp.kind = .axisPos a → cn.kind = .axisNeg a →
      cp.code ≠ cn.code → cp.id ≠ cn.id →
      ∀ samples : List (ℤ × GamepadSnapshot),
        cview (runPolls [cp, cn] samples pollInit) cp
          = cview (runPolls [cp] samples pollInit) cp ∧
        cview (runPolls [cp, cn] samples pollInit) cn
          = cview (runPolls [cn] samples pollInit) cn) :=
  ⟨fun c _ _ t0 snap0 rest ht0 h0 hr =>
    runPolls_one_while_held c t0 snap0 rest ht0 h0 hr,
   fun c _ _ t0 snap0 r0 tm snapm rm t2 snap2 r2 ht0 h0 hr0 hm hrm h2 hr2 hdeb2 =>
    runPolls_two_on_recross c t0 snap0 r0 tm snapm rm t2 snap2 r2 ht0 h0 hr0 hm hrm h2 hr2 hdeb2,
   fun cp cn _ _ _ hcode hid samples =>
    ⟨runPolls_pair_fst cp cn hcode hid samples pollInit pollInit rfl,
     runPolls_pair_snd cp cn hcode hid samples pollInit pollInit rfl⟩⟩

/-- C7 witness: on the positive-direction control of axis 0, three polls
held at 3/4 fire once; held/idle/held polls fire twice; and polling the
positive and negative controls together matches polling each alone. -/
theorem axis_edge_detection_witness :
    (gpPressed gpHeld axPos = some true ∧
      firedCount (runPolls [axPos]
        ((1000, gpHeld) :: [(1016, gpHeld), (1032, gpHeld)]) pollInit) axPos.id = 1) ∧
    (gpPressed gpIdle axPos = some false ∧
      firedCount (runPolls [axPos]
        (((1000, gpHeld) :: []) ++ ((1016, gpIdle) :: []) ++ ((1100, gpHeld) :: []))
        pollInit) axPos.id = 2) ∧
    (cview (runPolls [axPos, axNeg] [(1000, gpHeld), (1016, gpIdle), (1100, gpHeld)] pollInit)
        axPos
      = cview (runPolls [axPos] [(1000, gpHeld), (1016, gpIdle), (1100, gpHeld)] pollInit)
        axPos ∧
    cview (runPolls [axPos, axNeg] [(1000, gpHeld), (1016, gpIdle), (1100, gpHeld)] pollInit)
        axNeg
      = cview (runPolls [axNeg] [(1000, gpHeld), (1016, gpIdle), (1100, gpHeld)] pollInit)
        axNeg) :=
  ⟨⟨by decide,
    axis_edge_detection.1 axPos 0 (Or.inl rfl) 1000 gpHeld [(1016, gpHeld), (1032, gpHeld)]
      (by decide) (by decide) (by decide)⟩,
   ⟨by decide,
    axis_edge_detection.2.1 axPos 0 (Or.inl rfl) 1000 gpHeld [] 1016 gpIdle [] 1100 gpHeld []
      (by decide) (by decide) (by decide) (by decide) (by decide) (by decide) (by decide)
      (by decide)⟩,
   axis_edge_detection.2.2 axPos axNeg 0 rfl rfl (by decide) (by decide)
     [(1000, gpHeld), (1016, gpIdle), (1100, gpHeld)]⟩
